import Mathlib

/-!
Verification of the demo service in `demos/demo-code-analysis.py` against its
natural-language specification.  Python numbers are modelled as exact
rationals (`ℚ`), Python dictionaries as association lists, and SQLite side
effects as explicit state passing.
-/

namespace OrderManager

/-- `OrderManager.TAX` from the source: `TAX = 0.0825`. -/
def TAX : ℚ := 825 / 10000

/-- `OrderManager.DISCOUNT_VIP` from the source: `DISCOUNT_VIP = 0.2`. -/
def DISCOUNT_VIP : ℚ := 2 / 10

/-- `OrderManager.DISCOUNT_REGULAR` from the source: `DISCOUNT_REGULAR = 0.1`. -/
def DISCOUNT_REGULAR : ℚ := 1 / 10

/-- `OrderManager.total_with_tax_and_discount` from the source:
`user_type == 1` selects the regular discount, `user_type == 2` the VIP
discount, and any other tier code falls through to a discount of `0.0`;
the result is `(subtotal * (1 - discount)) * (1 + TAX)`. -/
def total_with_tax_and_discount (subtotal : ℚ) (user_type : ℤ) : ℚ :=
  if user_type = 1 then
    (subtotal * (1 - DISCOUNT_REGULAR)) * (1 + TAX)
  else if user_type = 2 then
    (subtotal * (1 - DISCOUNT_VIP)) * (1 + TAX)
  else
    (subtotal * (1 - (0 : ℚ))) * (1 + TAX)

end OrderManager

/-- The spec's `Tier`: enumerated variant `{Regular, VIP, None}`. -/
inductive Tier where
  | regular
  | vip
  | none
deriving DecidableEq

/-- The integer code the source uses for each tier: `1` for Regular, `2` for
VIP; the `None` tier is every other code, represented canonically by `0`. -/
def tierCode : Tier → ℤ
  | .regular => 1
  | .vip => 2
  | .none => 0

/-- The spec's `discountRate`: Regular = 0.10, VIP = 0.20, None = 0.0. -/
def discountRate : Tier → ℚ
  | .regular => 1 / 10
  | .vip => 2 / 10
  | .none => 0

/-- `PricingEngine.computeTotal` as the spec words it (the refinement
reference for the error-handling claim): fails with `UnknownTier` when the
tier code is not one of the defined variants, otherwise returns
`subtotal * (1 - discountRate(tier)) * (1 + TAX_RATE)`. -/
inductive PricingError where
  | unknownTier
deriving DecidableEq

/-- Modelled from the spec: `computeTotal` with the validation the spec
describes ("fails with `UnknownTier` if tier is not one of the defined
variants"). -/
def computeTotal_spec (subtotal : ℚ) (user_type : ℤ) : Except PricingError ℚ :=
  if user_type = 1 then
    .ok (subtotal * (1 - discountRate .regular) * (1 + OrderManager.TAX))
  else if user_type = 2 then
    .ok (subtotal * (1 - discountRate .vip) * (1 + OrderManager.TAX))
  else if user_type = 0 then
    .ok (subtotal * (1 - discountRate .none) * (1 + OrderManager.TAX))
  else
    .error .unknownTier

/-- Half-up rounding to the currency's minor unit (cents), as the spec's
rounding policy words it. -/
def roundHalfUpCents (q : ℚ) : ℚ :=
  (⌊q * 100 + 1 / 2⌋ : ℚ) / 100

/-! ## Python dictionaries and values

User records and `process_user_data` items are Python dicts with string
keys; values can be strings, numbers, booleans, lists or nested dicts. -/

/-- A Python value as used by the demo's user records. -/
inductive Val where
  | bool (b : Bool)
  | int (n : ℤ)
  | str (s : String)
  | list (xs : List Val)
  | dict (kvs : List (String × Val))

/-- A Python dict with string keys: an association list in insertion order
(keys unique by construction of Python dicts; lookup takes the first hit). -/
def Dict := List (String × Val)

/-- Python truthiness: `bool` is itself, numbers are truthy iff non-zero,
strings/lists/dicts iff non-empty. -/
def truthy : Val → Bool
  | .bool b => b
  | .int n => n != 0
  | .str s => s != ""
  | .list xs => !xs.isEmpty
  | .dict kvs => !kvs.isEmpty

/-- `d.get(k)` / `k in d` on a dict: the value at the first matching key. -/
def dictGet : Dict → String → Option Val
  | [], _ => none
  | (k, v) :: rest, key => if k = key then some v else dictGet rest key

/-- `d[k] = v` on a dict: replace the value in place if the key exists
(keeping its position), otherwise append the new binding. -/
def dictSet : Dict → String → Val → Dict
  | [], key, v => [(key, v)]
  | (k, w) :: rest, key, v =>
      if k = key then (k, v) :: rest else (k, w) :: dictSet rest key v

/-- The Python exceptions the modelled operations can raise: `TypeError`
(membership, subscription or `len` on a value of the wrong type) and
`KeyError` (dict subscription at an absent key). -/
inductive PyError where
  | typeError
  | keyError
deriving DecidableEq

/-- Substring occurrence on character lists: `pat` occurs in the list
(the empty pattern occurs in every list). -/
def subOcc (pat : List Char) : List Char → Bool
  | [] => pat.isEmpty
  | c :: rest => pat.isPrefixOf (c :: rest) || subOcc pat rest

/-- Python `k in xs` for a list: some element equals the string `k`
(Python `==` between a string and a non-string is `False`). -/
def listHasStr (xs : List Val) (k : String) : Bool :=
  xs.any fun v => match v with | .str s => s == k | _ => false

/-- Python `k in v` for a string key `k`: key membership for a dict,
element membership for a list, substring test for a string; `in` on a
number or boolean raises `TypeError` (not iterable). -/
def pyContains (v : Val) (k : String) : Except PyError Bool :=
  match v with
  | .dict kvs => .ok (dictGet kvs k).isSome
  | .list xs => .ok (listHasStr xs k)
  | .str s => .ok (subOcc k.data s.data)
  | .int _ => .error .typeError
  | .bool _ => .error .typeError

/-- Python subscription `v[k]` with a string key: dict lookup (`KeyError`
when the key is absent); indexing a string, list, number or boolean with a
string raises `TypeError`. -/
def pySubscript (v : Val) (k : String) : Except PyError Val :=
  match v with
  | .dict kvs =>
      match dictGet kvs k with
      | some w => .ok w
      | none => .error .keyError
  | _ => .error .typeError

/-- Python `len`: the length of a string, list or dict; `len` of a number
or boolean raises `TypeError`. -/
def pyLen : Val → Except PyError Nat
  | .str s => .ok s.length
  | .list xs => .ok xs.length
  | .dict kvs => .ok kvs.length
  | .int _ => .error .typeError
  | .bool _ => .error .typeError

namespace UserManager

/-- `UserManager.add_user` from the source: `if u: self.users.append(u)` —
a `None` argument or a falsy (empty) dict is silently skipped; any other
record is appended unconditionally. -/
def add_user (users : List Dict) (u : Option Dict) : List Dict :=
  match u with
  | none => users
  | some d => if d.isEmpty then users else users ++ [d]

/-- `user.get("username") == username` from the source: true exactly when
the record's `username` value is the given string. -/
def usernameIs (user : Dict) (username : String) : Bool :=
  match dictGet user "username" with
  | some (.str s) => s == username
  | _ => false

/-- `UserManager.update_user_age` from the source: walk the list, set
`user["age"] = age` on the first record whose username matches and return
`True`; return `False` when no record matches.  No bounds or type check on
`age` (the Python parameter is untyped, so the age is any value). -/
def update_user_age (users : List Dict) (username : String) (age : Val) :
    List Dict × Bool :=
  match users with
  | [] => ([], false)
  | user :: rest =>
      if usernameIs user username then
        (dictSet user "age" age :: rest, true)
      else
        let r := update_user_age rest username age
        (user :: r.1, r.2)

end UserManager

/-! ## `process_user_data` -/

/-- The body of the `for item in data` loop of `process_user_data`: the
nested conditionals, appending `item` to `result` when every test passes.
The tests on the `"user"` value (`"active" in item["user"]`,
`item["user"]["active"]`, likewise for `"permissions"`, and the final
`len`) can raise `TypeError`, which propagates out of the loop (the items
themselves are dicts per the parameter's type annotation, so the
item-level `in`/`[]` cannot raise). -/
def process_step (result : List Dict) (item : Dict) : Except PyError (List Dict) :=
  if !item.isEmpty then
    match dictGet item "user" with
    | some u =>
        if truthy u then
          match pyContains u "active" with
          | .error e => .error e
          | .ok false => .ok result
          | .ok true =>
              match pySubscript u "active" with
              | .error e => .error e
              | .ok a =>
                  if truthy a then
                    match pyContains u "permissions" with
                    | .error e => .error e
                    | .ok false => .ok result
                    | .ok true =>
                        match pySubscript u "permissions" with
                        | .error e => .error e
                        | .ok p =>
                            match pyLen p with
                            | .error e => .error e
                            | .ok n =>
                                if 0 < n then .ok (result ++ [item])
                                else .ok result
                  else .ok result
        else .ok result
    | none => .ok result
  else .ok result

/-- `process_user_data` from the source: start from an empty `result` and
run the loop body over the input in order; an exception raised by a test
aborts the loop and propagates to the caller. -/
def process_user_data (data : List Dict) : Except PyError (List Dict) :=
  data.foldlM process_step []

/-- The predicate the nested conditionals of `process_user_data` encode on
items whose tests raise nothing: the item is a non-empty dict, has a
truthy `"user"` value whose `"active"` membership test, subscription and
truthiness pass, and whose `"permissions"` entry has positive length. -/
def keepUser (item : Dict) : Bool :=
  !item.isEmpty &&
    match dictGet item "user" with
    | some u =>
        truthy u &&
          (match pyContains u "active" with
           | .ok true =>
               (match pySubscript u "active" with
                | .ok a =>
                    truthy a &&
                      (match pyContains u "permissions" with
                       | .ok true =>
                           (match pySubscript u "permissions" with
                            | .ok p =>
                                (match pyLen p with
                                 | .ok n => decide (0 < n)
                                 | .error _ => false)
                            | .error _ => false)
                       | _ => false)
                | .error _ => false)
           | _ => false)
    | none => false

/-! ## `OrderManager.create_order` query text -/

/-- The SQL text `create_order` executes, from the source f-string:
`f"INSERT INTO orders(user, amount) VALUES ('{username}', {amount})"`.
The float `amount` enters the text through its decimal rendering
`amountRepr`. -/
def create_order_query (username : String) (amountRepr : String) : String :=
  "INSERT INTO orders(user, amount) VALUES ('" ++ username ++ "', " ++
    amountRepr ++ ")"

/-! ## `init_db` and the backing store

The backing store is SQLite; `CREATE TABLE` without `IF NOT EXISTS` fails
when the table already exists, which is all of the SQLite semantics the
schema claim needs. -/

/-- The backing store's schema state: whether the `orders` table exists. -/
structure OrdersDB where
  hasOrders : Bool
deriving DecidableEq

/-- The error SQLite raises for `CREATE TABLE orders(...)` when the table
already exists. -/
inductive SqlError where
  | tableExists
deriving DecidableEq

/-- `init_db` from the source: executes `CREATE TABLE orders(user TEXT,
amount REAL)` — no `IF NOT EXISTS`, so per SQLite semantics it errors when
the table is already present and creates it otherwise. -/
def init_db (db : OrdersDB) : Except SqlError OrdersDB :=
  if db.hasOrders then .error .tableExists else .ok { hasOrders := true }

/-! ## The shared counter and its workers

`increment_shared_counter` runs `SHARED_COUNTER += 1` in a loop with no
lock.  In CPython the augmented assignment on a global integer is two
separately scheduled atomic actions — a read of the global and a write of
the incremented value — so a worker is modelled as a sequence of such
atomic steps and an execution as an arbitrary interleaving (schedule) of
worker steps.  `main` starts 4 threads each running the loop 10000 times
and joins them all. -/

/-- One worker running `increment_shared_counter`: the number of loop
iterations still to run, and the value read from the global when the
worker is between the read and the write of an iteration. -/
structure Worker where
  pending : Nat
  loc : Option Nat
deriving DecidableEq

/-- The whole system: the global `SHARED_COUNTER` and the workers. -/
structure CState where
  counter : Nat
  workers : List Worker
deriving DecidableEq

/-- One atomic step of worker `i`: between iterations it reads the global
(when iterations remain); after a read it writes back the read value plus
one, finishing the iteration.  A finished or out-of-range worker does
nothing. -/
def cstep (s : CState) (i : Nat) : CState :=
  match s.workers[i]? with
  | some w =>
      match w.loc with
      | none =>
          if w.pending = 0 then s
          else { s with workers := s.workers.set i ⟨w.pending, some s.counter⟩ }
      | some v =>
          { counter := v + 1, workers := s.workers.set i ⟨w.pending - 1, none⟩ }
  | none => s

/-- Run a schedule: the sequence of worker indices chosen by the thread
scheduler. -/
def crun (s : CState) (sched : List Nat) : CState :=
  sched.foldl cstep s

/-- The initial workers for increment counts `ks`: worker `j` will run
`increment_shared_counter(ks[j])`. -/
def mkWorkers (ks : List Nat) : List Worker :=
  ks.map fun k => ⟨k, none⟩

/-- The workers after all have completed their iterations. -/
def doneWorkers (ks : List Nat) : List Worker :=
  ks.map fun _ => ⟨0, none⟩

/-- The schedule in which each worker runs to completion before the next
starts (no interleaving): worker `b` takes its `2 * k` atomic steps, then
the rest follow. -/
def seqSched : List Nat → Nat → List Nat
  | [], _ => []
  | k :: rest, b => List.replicate (2 * k) b ++ seqSched rest (b + 1)

/-- C1: for every subtotal `s` and defined tier `t`,
`total_with_tax_and_discount` returns
`s * (1 - discountRate t) * (1 + TAX)` with the rates
Regular = 0.10, VIP = 0.20, None = 0.0 and TAX = 0.0825. -/
theorem C1_computeTotal_formula (s : ℚ) (t : Tier) :
    OrderManager.total_with_tax_and_discount s (tierCode t)
      = s * (1 - discountRate t) * (1 + OrderManager.TAX) := by
  cases t <;>
    simp [OrderManager.total_with_tax_and_discount, tierCode, discountRate,
      OrderManager.DISCOUNT_REGULAR, OrderManager.DISCOUNT_VIP]

/-- C3 counterexample: at the undefined tier code `3` the spec-worded
`computeTotal` fails with `UnknownTier`, but the source function does not
fail — it silently applies the zero (default) discount and returns the
no-discount total `100 * (1 + TAX)`. -/
theorem C3_counterexample :
    computeTotal_spec 100 3 = .error .unknownTier ∧
      OrderManager.total_with_tax_and_discount 100 3
        = 100 * (1 + OrderManager.TAX) := by
  constructor
  · rfl
  · simp [OrderManager.total_with_tax_and_discount]

/-- C3 (amended): for every subtotal and every tier code other than the
defined codes `1` (Regular) and `2` (VIP), `total_with_tax_and_discount`
does not fail; it silently applies a zero discount and returns
`subtotal * (1 + TAX)`. -/
theorem C3_unknown_tier_silent_default (s : ℚ) (t : ℤ)
    (h1 : t ≠ 1) (h2 : t ≠ 2) :
    OrderManager.total_with_tax_and_discount s t = s * (1 + OrderManager.TAX) := by
  simp [OrderManager.total_with_tax_and_discount, h1, h2]

/-- C3 witness: the amended statement at subtotal `100`, tier code `3`. -/
theorem C3_unknown_tier_silent_default_witness :
    OrderManager.total_with_tax_and_discount 100 3 = 100 * (1 + OrderManager.TAX) :=
  C3_unknown_tier_silent_default 100 3 (by decide) (by decide)

/-- C5 counterexample: the source applies no half-up rounding at the final
step — at subtotal `1`, tier `None` it returns the unrounded `1.0825`
(= 433/400), which differs from its half-up rounding to cents `1.08`. -/
theorem C5_counterexample :
    OrderManager.total_with_tax_and_discount 1 0 = 433 / 400 ∧
      roundHalfUpCents (433 / 400) = 108 / 100 ∧
      OrderManager.total_with_tax_and_discount 1 0
        ≠ roundHalfUpCents (OrderManager.total_with_tax_and_discount 1 0) := by
  refine ⟨?_, ?_, ?_⟩
  · simp [OrderManager.total_with_tax_and_discount, OrderManager.TAX]
    norm_num
  · unfold roundHalfUpCents
    norm_num
  · simp [OrderManager.total_with_tax_and_discount, OrderManager.TAX]
    unfold roundHalfUpCents
    norm_num

/-- C5 (amended): `computeTotal(100.0, VIP)` returns exactly 86.60 in exact
arithmetic because `100 × 0.80 × 1.0825 = 86.60` needs no rounding (the
value already coincides with its half-up rounding to cents); however the
source applies no rounding step at all, so at other inputs the result is
returned unrounded. -/
theorem C5_vip_total_86_60 :
    OrderManager.total_with_tax_and_discount 100 2 = 8660 / 100 ∧
      roundHalfUpCents (OrderManager.total_with_tax_and_discount 100 2)
        = OrderManager.total_with_tax_and_discount 100 2 := by
  constructor
  · simp [OrderManager.total_with_tax_and_discount, OrderManager.TAX,
      OrderManager.DISCOUNT_VIP]
    norm_num
  · simp [OrderManager.total_with_tax_and_discount, OrderManager.TAX,
      OrderManager.DISCOUNT_VIP]
    unfold roundHalfUpCents
    norm_num

/-- C9: for every non-negative subtotal `s` and every valid tier, the total
is non-negative, and for the same subtotal the totals are ordered
VIP ≤ Regular ≤ None. -/
theorem C9_nonneg_and_tier_order (s : ℚ) (hs : 0 ≤ s) :
    (∀ t : Tier, 0 ≤ OrderManager.total_with_tax_and_discount s (tierCode t)) ∧
      OrderManager.total_with_tax_and_discount s (tierCode .vip)
        ≤ OrderManager.total_with_tax_and_discount s (tierCode .regular) ∧
      OrderManager.total_with_tax_and_discount s (tierCode .regular)
        ≤ OrderManager.total_with_tax_and_discount s (tierCode .none) := by
  refine ⟨fun t => ?_, ?_, ?_⟩
  · cases t <;>
      · simp [OrderManager.total_with_tax_and_discount, tierCode,
          OrderManager.TAX, OrderManager.DISCOUNT_REGULAR, OrderManager.DISCOUNT_VIP]
        nlinarith
  · simp [OrderManager.total_with_tax_and_discount, tierCode,
      OrderManager.TAX, OrderManager.DISCOUNT_REGULAR, OrderManager.DISCOUNT_VIP]
    nlinarith
  · simp [OrderManager.total_with_tax_and_discount, tierCode,
      OrderManager.TAX, OrderManager.DISCOUNT_REGULAR, OrderManager.DISCOUNT_VIP]
    nlinarith

/-- C9 witness: the non-negativity and ordering at subtotal `100`. -/
theorem C9_nonneg_and_tier_order_witness :
    (0 : ℚ) ≤ 100 ∧
      ((∀ t : Tier, 0 ≤ OrderManager.total_with_tax_and_discount 100 (tierCode t)) ∧
        OrderManager.total_with_tax_and_discount 100 (tierCode .vip)
          ≤ OrderManager.total_with_tax_and_discount 100 (tierCode .regular) ∧
        OrderManager.total_with_tax_and_discount 100 (tierCode .regular)
          ≤ OrderManager.total_with_tax_and_discount 100 (tierCode .none)) :=
  ⟨by norm_num, C9_nonneg_and_tier_order 100 (by norm_num)⟩

/-- C4 counterexample: the SQL text `create_order` executes is not a fixed
string — it differs between two usernames with the same amount. -/
theorem C4_counterexample :
    create_order_query "alice" "19.99" ≠ create_order_query "bob" "19.99" := by
  decide

/-- C4 (amended): `create_order` interpolates its arguments into the SQL
text, so the query text depends on the username (with the amount fixed):
distinct usernames always produce distinct query texts.  The values are
never bound separately from the text. -/
theorem C4_query_text_depends_on_user (a u₁ u₂ : String) (h : u₁ ≠ u₂) :
    create_order_query u₁ a ≠ create_order_query u₂ a := by
  intro heq
  apply h
  apply String.ext
  have hd := congrArg String.data heq
  simp only [create_order_query, String.data_append, List.append_assoc] at hd
  exact List.append_cancel_right (List.append_cancel_left hd)

/-- C4 witness: the amended statement at usernames `carol`, `dave` and
amount `5.0`. -/
theorem C4_query_text_depends_on_user_witness :
    create_order_query "carol" "5.0" ≠ create_order_query "dave" "5.0" :=
  C4_query_text_depends_on_user "5.0" "carol" "dave" (by decide)

/-- C6 counterexample: `init_db` is not idempotent — on a store without
the table it creates it, but on the resulting store a second call raises
`table orders already exists` instead of succeeding unchanged. -/
theorem C6_counterexample :
    init_db ⟨false⟩ = .ok ⟨true⟩ ∧ init_db ⟨true⟩ = .error .tableExists := by
  constructor <;> rfl

/-- C6 (amended): `init_db` creates the `orders` table unconditionally (no
`IF NOT EXISTS`), so calling it twice in succession on the same fresh
backing store errors on the second call rather than being idempotent. -/
theorem C6_init_db_twice_errors :
    Except.bind (init_db ⟨false⟩) init_db = .error .tableExists := rfl

/-- C7 counterexample: `updateAge("bob", -5)` with `bob` registered does
not fail with `InvalidAge` — it writes the negative age in place and
returns `true`. -/
theorem C7_counterexample :
    UserManager.update_user_age
        [[("username", Val.str "bob"), ("age", Val.int 30)]] "bob" (.int (-5))
      = ([[("username", Val.str "bob"), ("age", Val.int (-5))]], true) := rfl

/-- C7 (amended): `update_user_age` performs no validation of the age at
all (any value, a negative or out-of-range number included, is written):
when no record's username matches it returns the registry unchanged with
`false` (without throwing), and otherwise it sets the age of the first
matching record in place and returns `true`. -/
theorem C7_update_age_no_validation :
    (∀ (users : List Dict) (name : String) (age : Val),
        (∀ u ∈ users, UserManager.usernameIs u name = false) →
        UserManager.update_user_age users name age = (users, false)) ∧
    (∀ (pre : List Dict) (u : Dict) (post : List Dict) (name : String) (age : Val),
        (∀ w ∈ pre, UserManager.usernameIs w name = false) →
        UserManager.usernameIs u name = true →
        UserManager.update_user_age (pre ++ u :: post) name age
          = (pre ++ dictSet u "age" age :: post, true)) := by
  constructor
  · intro users name age h
    induction users with
    | nil => rfl
    | cons user rest ih =>
        have hu : UserManager.usernameIs user name = false :=
          h user (List.mem_cons_self _ _)
        have hr := ih fun u hu => h u (List.mem_cons_of_mem _ hu)
        simp [UserManager.update_user_age, hu, hr]
  · intro pre u post name age hpre hu
    induction pre with
    | nil => simp [UserManager.update_user_age, hu]
    | cons w pre ih =>
        have hw : UserManager.usernameIs w name = false :=
          hpre w (List.mem_cons_self _ _)
        have hr := ih fun w hw => hpre w (List.mem_cons_of_mem _ hw)
        simp [UserManager.update_user_age, hw, hr]

/-- C7 witness: the amended statement at the registry `[bob]`: updating a
missing user returns `false` without error, and updating `bob` with the
invalid age `-5` writes it and returns `true`. -/
theorem C7_update_age_no_validation_witness :
    UserManager.update_user_age
        [[("username", Val.str "bob"), ("age", Val.int 30)]] "nobody" (.int 30)
      = ([[("username", Val.str "bob"), ("age", Val.int 30)]], false) ∧
    UserManager.update_user_age
        [[("username", Val.str "bob"), ("age", Val.int 30)]] "bob" (.int (-5))
      = ([[("username", Val.str "bob"), ("age", Val.int (-5))]], true) := by
  constructor
  · exact C7_update_age_no_validation.1 _ _ _ (by
      intro u hu
      rw [List.mem_singleton] at hu
      subst hu
      decide)
  · exact C7_update_age_no_validation.2 [] _ _ _ _ (by simp) (by decide)

/-- C8 counterexample: `add_user` never fails with `InvalidUser`: a record
with an empty username is appended (the registry grows), and a null record
is silently skipped rather than rejected with an error. -/
theorem C8_counterexample :
    UserManager.add_user [] (some [("username", Val.str "")])
        = [[("username", Val.str "")]] ∧
      UserManager.add_user [] none = ([] : List Dict) :=
  ⟨rfl, rfl⟩

/-- C8 (amended): `add_user` does no validation and raises nothing: a null
or empty (falsy) record is silently ignored leaving the registry
unchanged, and every non-empty record — an empty-username record included —
is appended. -/
theorem C8_add_user_no_validation :
    (∀ users : List Dict, UserManager.add_user users none = users) ∧
    (∀ users : List Dict, UserManager.add_user users (some []) = users) ∧
    (∀ (users : List Dict) (d : Dict), d ≠ [] →
        UserManager.add_user users (some d) = users ++ [d]) := by
  refine ⟨fun users => rfl, fun users => rfl, fun users d hd => ?_⟩
  match d with
  | [] => exact absurd rfl hd
  | kv :: rest => rfl

/-- C8 witness: the amended statement on the empty registry with a null
record and with an empty-username record. -/
theorem C8_add_user_no_validation_witness :
    UserManager.add_user [] none = ([] : List Dict) ∧
      UserManager.add_user [] (some [("username", Val.str "x")])
        = [[("username", Val.str "x")]] :=
  ⟨C8_add_user_no_validation.1 [],
    C8_add_user_no_validation.2.2 [] _ (by simp)⟩

/-- Helper: one pass of the `process_user_data` loop body, when it raises
nothing, appends the item exactly when the nested tests' conjunction
`keepUser` holds. -/
theorem process_step_ok (acc : List Dict) (item : Dict) (l : List Dict)
    (h : process_step acc item = .ok l) :
    l = acc ++ (if keepUser item then [item] else []) := by
  unfold process_step at h
  by_cases hne : item.isEmpty = true
  · simp [hne] at h
    have hk : keepUser item = false := by simp [keepUser, hne]
    simp [hk, h]
  · simp only [Bool.not_eq_true] at hne
    simp only [hne, Bool.not_false, if_true] at h
    cases hg : dictGet item "user" with
    | none =>
        simp only [hg, Except.ok.injEq] at h
        have hk : keepUser item = false := by simp [keepUser, hne, hg]
        simp [hk, h]
    | some u =>
        simp only [hg] at h
        by_cases ht : truthy u = true
        · simp only [ht, if_true] at h
          cases hc : pyContains u "active" with
          | error e => simp [hc] at h
          | ok b =>
              simp only [hc] at h
              cases b with
              | false =>
                  simp only [Except.ok.injEq] at h
                  have hk : keepUser item = false := by
                    simp [keepUser, hne, hg, ht, hc]
                  simp [hk, h]
              | true =>
                  simp only at h
                  cases hs : pySubscript u "active" with
                  | error e => simp [hs] at h
                  | ok a =>
                      simp only [hs] at h
                      by_cases hta : truthy a = true
                      · simp only [hta, if_true] at h
                        cases hcp : pyContains u "permissions" with
                        | error e => simp [hcp] at h
                        | ok bp =>
                            simp only [hcp] at h
                            cases bp with
                            | false =>
                                simp only [Except.ok.injEq] at h
                                have hk : keepUser item = false := by
                                  simp [keepUser, hne, hg, ht, hc, hs, hta, hcp]
                                simp [hk, h]
                            | true =>
                                simp only at h
                                cases hsp : pySubscript u "permissions" with
                                | error e => simp [hsp] at h
                                | ok p =>
                                    simp only [hsp] at h
                                    cases hlp : pyLen p with
                                    | error e => simp [hlp] at h
                                    | ok n =>
                                        simp only [hlp] at h
                                        by_cases hn : 0 < n
                                        · simp [hn] at h
                                          have hk : keepUser item = true := by
                                            simp [keepUser, hne, hg, ht, hc, hs,
                                              hta, hcp, hsp, hlp, hn]
                                          simp [hk, h]
                                        · simp [hn] at h
                                          have hk : keepUser item = false := by
                                            simp [keepUser, hne, hg, ht, hc, hs,
                                              hta, hcp, hsp, hlp, hn]
                                          simp [hk, h]
                      · simp [hta] at h
                        have hk : keepUser item = false := by
                          simp [keepUser, hne, hg, ht, hc, hs, hta]
                        simp [hk, h]
        · simp [ht] at h
          have hk : keepUser item = false := by simp [keepUser, hne, hg, ht]
          simp [hk, h]

/-- Helper: the `process_user_data` loop from any accumulator, when no
test raises, returns that accumulator followed by the filtered input. -/
theorem process_foldlM (data : List Dict) :
    ∀ (acc res : List Dict),
      data.foldlM process_step acc = .ok res →
      res = acc ++ data.filter keepUser := by
  induction data with
  | nil =>
      intro acc res h
      simp only [List.foldlM, pure, Except.pure] at h
      simp [Except.ok.inj h]
  | cons item rest ih =>
      intro acc res h
      rw [List.foldlM_cons] at h
      cases hstep : process_step acc item with
      | error e =>
          simp only [hstep, bind, Except.bind] at h
          exact Except.noConfusion h
      | ok acc2 =>
          simp only [hstep, bind, Except.bind] at h
          have hstep2 := process_step_ok acc item acc2 hstep
          have hrest := ih acc2 res h
          rw [hrest, hstep2, List.filter_cons]
          by_cases hk : keepUser item = true <;> simp [hk]

/-- C10 counterexample: `process_user_data` does not return a filtered
list on every input — it raises `TypeError` on some.  With a string
`"user"` value, `"active" in "inactive"` is a substring test that
succeeds, and the following `item["user"]["active"]` indexes a string
with a string; with `"permissions": 3`, `len(3)` is reached.  Both raise
`TypeError` instead of returning a list. -/
theorem C10_counterexample :
    process_user_data [[("user", Val.str "inactive")]] = .error .typeError ∧
      process_user_data
          [[("user", Val.dict [("active", Val.bool true),
              ("permissions", Val.int 3)])]]
        = .error .typeError := by
  constructor
  · rfl
  · rfl

/-- C10 (amended): whenever `process_user_data` returns normally (none of
its tests raises `TypeError`), the result is exactly the subsequence, in
input order, of the items that pass all the nested tests (non-empty item,
truthy `"user"` value, truthy `"active"` entry, `"permissions"` entry of
positive length) — a sublist of the unchanged input; and the empty list
maps to the empty list.  On other inputs the function raises instead of
returning. -/
theorem C10_process_user_data_filter :
    (∀ (data res : List Dict), process_user_data data = .ok res →
        res = data.filter keepUser ∧ res.Sublist data) ∧
      process_user_data [] = .ok [] := by
  refine ⟨fun data res h => ?_, rfl⟩
  have hres := process_foldlM data [] res h
  simp only [List.nil_append] at hres
  exact ⟨hres, hres ▸ List.filter_sublist data⟩

/-- C10 witness: the amended statement at a one-item input that passes
every test (the hypothesis `process_user_data data = .ok res` is
discharged by evaluation). -/
theorem C10_process_user_data_filter_witness :
    ([[("user", Val.dict [("active", Val.bool true),
        ("permissions", Val.list [Val.str "read"])])]] : List Dict)
        = ([[("user", Val.dict [("active", Val.bool true),
            ("permissions", Val.list [Val.str "read"])])]] : List Dict).filter
            keepUser ∧
      ([[("user", Val.dict [("active", Val.bool true),
          ("permissions", Val.list [Val.str "read"])])]] : List Dict).Sublist
        [[("user", Val.dict [("active", Val.bool true),
            ("permissions", Val.list [Val.str "read"])])]] :=
  C10_process_user_data_filter.1
    [[("user", Val.dict [("active", Val.bool true),
        ("permissions", Val.list [Val.str "read"])])]]
    [[("user", Val.dict [("active", Val.bool true),
        ("permissions", Val.list [Val.str "read"])])]] rfl

/-- Helper: setting an index to the value it already holds is the
identity. -/
theorem list_set_self {α : Type} : ∀ (l : List α) (i : Nat) (w : α),
    l[i]? = some w → l.set i w = l
  | [], i, w, h => by simp at h
  | x :: t, 0, w, h => by
      simp at h
      simp [h]
  | x :: t, i + 1, w, h => by
      simp at h
      simp [list_set_self t i w h]

/-- Helper: setting the element right after a prefix. -/
theorem list_set_append_len {α : Type} : ∀ (pre : List α) (x : α) (l : List α) (a : α),
    (pre ++ x :: l).set pre.length a = pre ++ a :: l
  | [], x, l, a => rfl
  | p :: ps, x, l, a => by
      simp [List.set, list_set_append_len ps x l a]

/-- Helper: reading the element right after a prefix. -/
theorem list_getElem?_append_len {α : Type} (pre : List α) (x : α) (l : List α) :
    (pre ++ x :: l)[pre.length]? = some x := by
  rw [List.getElem?_append_right (Nat.le_refl _)]
  simp

/-- Helper: a worker with `n` iterations left and no pending read, run
alone for its `2 * n` atomic steps, adds exactly `n` to the counter. -/
theorem crun_replicate : ∀ (n c i : Nat) (ws : List Worker),
    ws[i]? = some ⟨n, none⟩ →
    crun ⟨c, ws⟩ (List.replicate (2 * n) i) = ⟨c + n, ws.set i ⟨0, none⟩⟩ := by
  intro n
  induction n with
  | zero =>
      intro c i ws h
      simp [crun, list_set_self ws i ⟨0, none⟩ h]
  | succ n ih =>
      intro c i ws h
      have hlt : i < ws.length := (List.getElem?_eq_some.mp h).1
      rw [show 2 * (n + 1) = (2 * n) + 1 + 1 by ring]
      rw [List.replicate_succ, List.replicate_succ]
      show crun (cstep (cstep ⟨c, ws⟩ i) i) (List.replicate (2 * n) i) = _
      have h1 : cstep ⟨c, ws⟩ i
          = ⟨c, ws.set i ⟨n + 1, some c⟩⟩ := by
        simp [cstep, h]
      rw [h1]
      have h2 : cstep ⟨c, ws.set i ⟨n + 1, some c⟩⟩ i
          = ⟨c + 1, ws.set i ⟨n, none⟩⟩ := by
        simp [cstep, List.getElem?_set_eq_of_lt _ hlt, List.set_set]
      rw [h2]
      have h3 : (ws.set i ⟨n, none⟩)[i]? = some ⟨n, none⟩ :=
        List.getElem?_set_eq_of_lt _ hlt
      rw [ih (c + 1) i _ h3, List.set_set]
      congr 1
      omega

/-- Helper: running the workers one after the other (the schedule without
interleaving) adds the sum of all requested increments to the counter and
completes every worker. -/
theorem crun_seqSched : ∀ (ks : List Nat) (pre : List Worker) (c : Nat),
    crun ⟨c, pre ++ mkWorkers ks⟩ (seqSched ks pre.length)
      = ⟨c + ks.sum, pre ++ doneWorkers ks⟩ := by
  intro ks
  induction ks with
  | nil =>
      intro pre c
      simp [crun, seqSched, mkWorkers, doneWorkers]
  | cons k rest ih =>
      intro pre c
      rw [seqSched]
      rw [show mkWorkers (k :: rest) = ⟨k, none⟩ :: mkWorkers rest from rfl]
      rw [crun, List.foldl_append]
      rw [show List.foldl cstep ⟨c, pre ++ ⟨k, none⟩ :: mkWorkers rest⟩
            (List.replicate (2 * k) pre.length)
          = crun ⟨c, pre ++ ⟨k, none⟩ :: mkWorkers rest⟩
            (List.replicate (2 * k) pre.length) from rfl]
      rw [crun_replicate k c pre.length _ (list_getElem?_append_len pre _ _)]
      rw [list_set_append_len]
      have hpre : (pre ++ [(⟨0, none⟩ : Worker)]).length = pre.length + 1 := by
        simp
      have := ih (pre ++ [⟨0, none⟩]) (c + k)
      rw [hpre] at this
      rw [show pre ++ (⟨0, none⟩ : Worker) :: mkWorkers rest
            = (pre ++ [⟨0, none⟩]) ++ mkWorkers rest by simp]
      rw [show List.foldl cstep ⟨c + k, (pre ++ [⟨0, none⟩]) ++ mkWorkers rest⟩
            (seqSched rest (pre.length + 1))
          = crun ⟨c + k, (pre ++ [⟨0, none⟩]) ++ mkWorkers rest⟩
            (seqSched rest (pre.length + 1)) from rfl]
      rw [this]
      simp [doneWorkers]
      omega

/-- C2 counterexample: with no lock on `SHARED_COUNTER`, updates are lost —
two workers each incrementing once, under the interleaving read/read/
write/write, both complete (all iterations done, no pending read), yet the
counter ends at `1`, not the requested sum `2`. -/
theorem C2_counterexample :
    crun ⟨0, mkWorkers [1, 1]⟩ [0, 1, 0, 1] = ⟨1, doneWorkers [1, 1]⟩ ∧
      (1 : ℕ) ≠ [1, 1].sum := by
  constructor
  · rfl
  · decide

/-- C2 (amended): because `SHARED_COUNTER += 1` runs with no lock, the
final value is only guaranteed to equal the requested sum when the
workers' read-modify-write steps do not interleave: for every list of
increment counts, the sequential schedule ends with the counter at exactly
the sum of all requested increments and every worker complete; in
particular, 4 workers each incrementing 10000 times starting from 0 end at
40000.  Under other interleavings updates can be lost. -/
theorem C2_sequential_sum :
    (∀ ks : List Nat,
        crun ⟨0, mkWorkers ks⟩ (seqSched ks 0) = ⟨ks.sum, doneWorkers ks⟩) ∧
      (crun ⟨0, mkWorkers [10000, 10000, 10000, 10000]⟩
          (seqSched [10000, 10000, 10000, 10000] 0)).counter = 40000 := by
  have base : ∀ ks : List Nat,
      crun ⟨0, mkWorkers ks⟩ (seqSched ks 0) = ⟨ks.sum, doneWorkers ks⟩ := by
    intro ks
    have := crun_seqSched ks [] 0
    simpa using this
  refine ⟨base, ?_⟩
  rw [base [10000, 10000, 10000, 10000]]
  norm_num
